import Mathlib

/-!
Verification of the interactive changeset-authoring core of the
`atlassian-forks/changesets` repository.

The definitions below are a shallow embedding of the TypeScript source:

* `groupByBumpType`, `getReleasesSection`, `getChangeTypesSection`,
  `getChangesetContent` — from
  `packages/cli/src/commands/add/writeChangeTypes.ts` (first revision in the
  file; the one the specification cites).
* `getPackagesToRelease`, `confirmMajorRelease`, the multi-package bump
  classification loop and the single-package flow — from the release selector
  (`createChangeset`).
* `setSummary` — the summary collector.
* `writeChangesetList` — the changeset writer, modelled as a trace of
  operations against the abstract store / VCS / prompt services.
* `getDescriptionWithPreviousAnswer` and the per-package change-type
  collection loop — the answer-reuse cache.
* `ChangesetsWithChangeTypes` — the stateful collector class, modelled as a
  state record threaded through its methods.

Interactive prompts are modelled as explicit oracles: a list of scripted
console answers (exhaustion of the script makes a blocking loop return
`Option.none`), or an indexed function when every call site consumes exactly
one scripted answer.  JavaScript string truthiness (`""` and `undefined` are
falsy) is modelled explicitly at each use.
-/

namespace Changesets

/-- A change category.  The cited revision of the source represents a
category as a `{ title, text }` pair (`ChangeTypeOption`). -/
structure Category where
  title : String
  text : String
deriving Repr, DecidableEq

/-- A categorized change description (`ChangeType` in `@changesets/types`). -/
structure ChangeType where
  category : Category
  description : String
deriving Repr, DecidableEq

/-- A `Release`: package name, bump type, and the optional `changeTypes`
annotation.  The bump type is kept as a raw string because the classifier's
defensive fallback is about values outside the `VersionType` enumeration.
`Option.none` models the JavaScript `undefined` field. -/
structure Release where
  name : String
  type : String
  changeTypes : Option (List ChangeType) := none
deriving Repr, DecidableEq

/-- A changeset record (`ChangesetWithConfirmed`). -/
structure ChangesetWithConfirmed where
  releases : List Release
  summary : String
  confirmed : Bool
deriving Repr, DecidableEq

/-- The four buckets returned by `groupByBumpType`. -/
structure GroupedReleases where
  major : List Release
  minor : List Release
  patch : List Release
  nones : List Release
deriving Repr, DecidableEq

/-- `groupByBumpType` from `writeChangeTypes.ts`: a single pass over the
releases, pushing each one onto exactly one bucket.  The source's
`forEach`/`push` loop appends in input order; the structural recursion below
conses the head onto the front of the recursively grouped tail, which
produces the same stable partition. -/
def groupByBumpType : List Release → GroupedReleases
  | [] => ⟨[], [], [], []⟩
  | rel :: rest =>
    let g := groupByBumpType rest
    if rel.type = "major" then { g with major := rel :: g.major }
    else if rel.type = "minor" then { g with minor := rel :: g.minor }
    else if rel.type = "patch" then { g with patch := rel :: g.patch }
    else { g with major := rel :: g.major }

theorem groupByBumpType_major_eq (releases : List Release) :
    (groupByBumpType releases).major =
      releases.filter (fun r => r.type ≠ "minor" ∧ r.type ≠ "patch") := by
  induction releases with
  | nil => rfl
  | cons rel rest ih =>
    by_cases h1 : rel.type = "major" <;>
      by_cases h2 : rel.type = "minor" <;>
      by_cases h3 : rel.type = "patch" <;>
      simp_all [groupByBumpType, List.filter]

theorem groupByBumpType_minor_eq (releases : List Release) :
    (groupByBumpType releases).minor =
      releases.filter (fun r => r.type = "minor") := by
  induction releases with
  | nil => rfl
  | cons rel rest ih =>
    by_cases h1 : rel.type = "major" <;>
      by_cases h2 : rel.type = "minor" <;>
      by_cases h3 : rel.type = "patch" <;>
      simp_all [groupByBumpType, List.filter]

theorem groupByBumpType_patch_eq (releases : List Release) :
    (groupByBumpType releases).patch =
      releases.filter (fun r => r.type = "patch") := by
  induction releases with
  | nil => rfl
  | cons rel rest ih =>
    by_cases h1 : rel.type = "major" <;>
      by_cases h2 : rel.type = "minor" <;>
      by_cases h3 : rel.type = "patch" <;>
      simp_all [groupByBumpType, List.filter]

theorem groupByBumpType_nones_eq (releases : List Release) :
    (groupByBumpType releases).nones = [] := by
  induction releases with
  | nil => rfl
  | cons rel rest ih =>
    by_cases h1 : rel.type = "major" <;>
      by_cases h2 : rel.type = "minor" <;>
      by_cases h3 : rel.type = "patch" <;>
      simp_all [groupByBumpType]

/-- C1, counterexample: a release whose bump type is exactly `"none"` is NOT
placed in the `none` bucket; it lands in the `major` bucket and the `none`
bucket is empty. -/
theorem c1_none_goes_to_major_not_none_bucket :
    (groupByBumpType [⟨"pkg-a", "none", Option.none⟩]).nones = [] ∧
      (groupByBumpType [⟨"pkg-a", "none", Option.none⟩]).major =
        [⟨"pkg-a", "none", Option.none⟩] := by
  constructor <;> rfl

/-- C1, amended: `groupByBumpType` partitions its input exactly into the
`major`, `minor` and `patch` buckets, preserving relative input order within
each bucket (each bucket is the stable filter of the input by its
predicate); any release whose type is not exactly `"minor"` or `"patch"` —
including `"none"` and unrecognized values — is classified as `"major"` and
never dropped, and the `none` bucket is always empty. -/
theorem c1_groupByBumpType_partitions (releases : List Release) :
    (groupByBumpType releases).major =
        releases.filter (fun r => r.type ≠ "minor" ∧ r.type ≠ "patch") ∧
      (groupByBumpType releases).minor =
        releases.filter (fun r => r.type = "minor") ∧
      (groupByBumpType releases).patch =
        releases.filter (fun r => r.type = "patch") ∧
      (groupByBumpType releases).nones = [] ∧
      (groupByBumpType releases).major.length +
          (groupByBumpType releases).minor.length +
          (groupByBumpType releases).patch.length +
          (groupByBumpType releases).nones.length = releases.length ∧
      ∀ r ∈ releases,
        r ∈ (groupByBumpType releases).major ∨
          r ∈ (groupByBumpType releases).minor ∨
          r ∈ (groupByBumpType releases).patch := by
  refine ⟨groupByBumpType_major_eq releases, groupByBumpType_minor_eq releases,
    groupByBumpType_patch_eq releases, groupByBumpType_nones_eq releases, ?_, ?_⟩
  · rw [groupByBumpType_major_eq, groupByBumpType_minor_eq,
      groupByBumpType_patch_eq, groupByBumpType_nones_eq]
    induction releases with
    | nil => rfl
    | cons rel rest ih =>
      by_cases h2 : rel.type = "minor" <;>
        by_cases h3 : rel.type = "patch" <;>
        simp_all [List.filter] <;> omega
  · intro r hr
    rw [groupByBumpType_major_eq, groupByBumpType_minor_eq,
      groupByBumpType_patch_eq]
    by_cases h2 : r.type = "minor"
    · exact Or.inr (Or.inl (List.mem_filter.mpr ⟨hr, by simp [h2]⟩))
    · by_cases h3 : r.type = "patch"
      · exact Or.inr (Or.inr (List.mem_filter.mpr ⟨hr, by simp [h3]⟩))
      · exact Or.inl (List.mem_filter.mpr ⟨hr, by simp [h2, h3]⟩)

/-- Witness for `c1_groupByBumpType_partitions` at a concrete two-release
list containing a `"none"`-typed release. -/
theorem c1_groupByBumpType_partitions_witness :
    (groupByBumpType [⟨"pkg-a", "none", Option.none⟩,
          ⟨"pkg-b", "minor", Option.none⟩]).major =
        [⟨"pkg-a", "none", Option.none⟩, ⟨"pkg-b", "minor",
          Option.none⟩].filter
          (fun r => r.type ≠ "minor" ∧ r.type ≠ "patch") ∧
      (groupByBumpType [⟨"pkg-a", "none", Option.none⟩,
          ⟨"pkg-b", "minor", Option.none⟩]).minor =
        [⟨"pkg-a", "none", Option.none⟩, ⟨"pkg-b", "minor",
          Option.none⟩].filter (fun r => r.type = "minor") ∧
      (groupByBumpType [⟨"pkg-a", "none", Option.none⟩,
          ⟨"pkg-b", "minor", Option.none⟩]).patch =
        [⟨"pkg-a", "none", Option.none⟩, ⟨"pkg-b", "minor",
          Option.none⟩].filter (fun r => r.type = "patch") ∧
      (groupByBumpType [⟨"pkg-a", "none", Option.none⟩,
          ⟨"pkg-b", "minor", Option.none⟩]).nones = [] ∧
      (groupByBumpType [⟨"pkg-a", "none", Option.none⟩,
            ⟨"pkg-b", "minor", Option.none⟩]).major.length +
          (groupByBumpType [⟨"pkg-a", "none", Option.none⟩,
            ⟨"pkg-b", "minor", Option.none⟩]).minor.length +
          (groupByBumpType [⟨"pkg-a", "none", Option.none⟩,
            ⟨"pkg-b", "minor", Option.none⟩]).patch.length +
          (groupByBumpType [⟨"pkg-a", "none", Option.none⟩,
            ⟨"pkg-b", "minor", Option.none⟩]).nones.length =
        ([⟨"pkg-a", "none", Option.none⟩, ⟨"pkg-b", "minor",
          Option.none⟩] : List Release).length ∧
      ∀ r ∈ ([⟨"pkg-a", "none", Option.none⟩, ⟨"pkg-b", "minor",
          Option.none⟩] : List Release),
        r ∈ (groupByBumpType [⟨"pkg-a", "none", Option.none⟩,
            ⟨"pkg-b", "minor", Option.none⟩]).major ∨
          r ∈ (groupByBumpType [⟨"pkg-a", "none", Option.none⟩,
            ⟨"pkg-b", "minor", Option.none⟩]).minor ∨
          r ∈ (groupByBumpType [⟨"pkg-a", "none", Option.none⟩,
            ⟨"pkg-b", "minor", Option.none⟩]).patch :=
  c1_groupByBumpType_partitions
    [⟨"pkg-a", "none", Option.none⟩, ⟨"pkg-b", "minor", Option.none⟩]

/-- `getReleasesSection`: the front-matter block.  The cited revision's
template literal is indented, so the rendered text carries two spaces before
each interpolated line: `---\n  <lines>\n  ---\n`. -/
def getReleasesSection (releases : List Release) : String :=
  "---\n  " ++
    String.intercalate "\n"
      (releases.map (fun r => "\"" ++ r.name ++ "\": " ++ r.type)) ++
    "\n  ---\n"

/-- `getChangeTypesSection`.  With a (truthy) `bumpType`, the change types of
the first release whose type equals `bumpType` are used (or `[]` when there
is no such release or its `changeTypes` field is `undefined`); otherwise the
concatenation of every release's change types.  Entries with an empty
description are filtered out and the rest rendered as bullet lines. -/
def getChangeTypesSection (releases : List Release) (bumpType : Option String) :
    String :=
  let changeTypes : List ChangeType :=
    match bumpType with
    | some bt =>
      if bt ≠ "" then
        match (releases.filter (fun r => r.type = bt)).head? with
        | some oneRelease => oneRelease.changeTypes.getD []
        | Option.none => []
      else releases.flatMap (fun r => r.changeTypes.getD [])
    | Option.none => releases.flatMap (fun r => r.changeTypes.getD [])
  String.intercalate "\n"
      ((changeTypes.filter (fun c => c.description ≠ "")).map
        (fun c => "- [ " ++ c.category.title ++ " ] " ++ c.description)) ++
    "\n"

/-- `getChangesetContent`.  The whitespace reproduces the source's template
literals exactly: when splitting, each group is rendered as
`<releasesSection>\n  <changeTypesSection>`; when not splitting the releases
section is followed by a trailing space, a newline and four spaces of
indentation before the change-type section.  Returns `none` (JavaScript
`null`) when no release carries change types. -/
def getChangesetContent (releases : List Release) (summary : String)
    (splitReleasesByBumpType : Bool) : Option String :=
  if splitReleasesByBumpType ∧ releases.any (fun r => r.changeTypes.isSome) then
    let g := groupByBumpType releases
    let grouped :=
      [("major", g.major), ("minor", g.minor), ("patch", g.patch),
        ("none", g.nones)].filter (fun p => p.2 ≠ [])
    some
      (String.intercalate "\n"
          (grouped.map (fun p =>
            getReleasesSection p.2 ++ "\n  " ++
              getChangeTypesSection p.2 (some p.1))) ++
        "\n  \n  " ++ summary ++ "\n  ")
  else if releases.any (fun r => r.changeTypes.isSome) then
    some
      (getReleasesSection releases ++ " \n    " ++
        getChangeTypesSection releases Option.none ++
        "\n  \n  " ++ summary ++ "\n  ")
  else Option.none

/-- The bucket of `groupByBumpType` that ends up holding releases of type
`t`: `minor` and `patch` keep their own bucket, everything else (including
`"none"`) lands in `major`. -/
def bucketName (t : String) : String :=
  if t = "minor" then "minor" else if t = "patch" then "patch" else "major"

theorem grouped_single_bucket (rels : List Release) (t : String)
    (hall : ∀ r ∈ rels, r.type = t) (hne : rels ≠ []) :
    ([("major", (groupByBumpType rels).major),
        ("minor", (groupByBumpType rels).minor),
        ("patch", (groupByBumpType rels).patch),
        ("none", (groupByBumpType rels).nones)].filter (fun p => p.2 ≠ [])) =
      [(bucketName t, rels)] := by
  rw [groupByBumpType_major_eq, groupByBumpType_minor_eq,
    groupByBumpType_patch_eq, groupByBumpType_nones_eq]
  by_cases h2 : t = "minor"
  · have hminor : rels.filter (fun r => r.type = "minor") = rels :=
      List.filter_eq_self.mpr (fun r hr => by simp [hall r hr, h2])
    have hmajor :
        rels.filter (fun r => r.type ≠ "minor" ∧ r.type ≠ "patch") = [] :=
      List.filter_eq_nil_iff.mpr (fun r hr => by simp [hall r hr, h2])
    have hpatch : rels.filter (fun r => r.type = "patch") = [] :=
      List.filter_eq_nil_iff.mpr (fun r hr => by simp [hall r hr, h2])
    rw [hminor, hmajor, hpatch]
    simp [List.filter, hne, bucketName, h2]
  · by_cases h3 : t = "patch"
    · have hpatch : rels.filter (fun r => r.type = "patch") = rels :=
        List.filter_eq_self.mpr (fun r hr => by simp [hall r hr, h3])
      have hmajor :
          rels.filter (fun r => r.type ≠ "minor" ∧ r.type ≠ "patch") = [] :=
        List.filter_eq_nil_iff.mpr (fun r hr => by simp [hall r hr, h3])
      have hminor : rels.filter (fun r => r.type = "minor") = [] :=
        List.filter_eq_nil_iff.mpr (fun r hr => by simp [hall r hr, h3])
      rw [hminor, hmajor, hpatch]
      simp [List.filter, hne, bucketName, h2, h3]
    · have hmajor :
          rels.filter (fun r => r.type ≠ "minor" ∧ r.type ≠ "patch") = rels :=
        List.filter_eq_self.mpr (fun r hr => by simp [hall r hr, h2, h3])
      have hminor : rels.filter (fun r => r.type = "minor") = [] :=
        List.filter_eq_nil_iff.mpr (fun r hr => by simp [hall r hr, h2])
      have hpatch : rels.filter (fun r => r.type = "patch") = [] :=
        List.filter_eq_nil_iff.mpr (fun r hr => by simp [hall r hr, h3])
      rw [hminor, hmajor, hpatch]
      simp [List.filter, hne, bucketName, h2, h3]

/-- C2, counterexample: on a one-release major list carrying a change type,
rendering with `splitReleasesByBumpType = false` does not equal rendering
with `true` — the interstitial whitespace differs. -/
theorem c2_split_rendering_not_equal :
    getChangesetContent
        [⟨"pkg-a", "major", some [⟨⟨"Added", "t"⟩, "d"⟩]⟩] "s" false ≠
      getChangesetContent
        [⟨"pkg-a", "major", some [⟨⟨"Added", "t"⟩, "d"⟩]⟩] "s" true := by
  decide

/-- C2, amended: for a non-empty release list that shares a single bump type
and carries change types, the two renderings share the same front-matter
section, summary and trailing whitespace, and (for one-release lists with
type in {major, minor, patch}) the same change-type section; but the literal
whitespace between the front-matter and the change-type section is `"\n  "`
when splitting and `" \n    "` when not, so the two contents are never
byte-equal. -/
theorem c2_amended (rels : List Release) (s t : String)
    (hall : ∀ r ∈ rels, r.type = t) (hne : rels ≠ [])
    (hsome : rels.any (fun r => r.changeTypes.isSome) = true) :
    getChangesetContent rels s true =
        some (getReleasesSection rels ++ "\n  " ++
          getChangeTypesSection rels (some (bucketName t)) ++
          "\n  \n  " ++ s ++ "\n  ") ∧
      getChangesetContent rels s false =
        some (getReleasesSection rels ++ " \n    " ++
          getChangeTypesSection rels Option.none ++
          "\n  \n  " ++ s ++ "\n  ") ∧
      (∀ r, rels = [r] → t = "major" ∨ t = "minor" ∨ t = "patch" →
        getChangeTypesSection rels (some (bucketName t)) =
          getChangeTypesSection rels Option.none) ∧
      getChangesetContent rels s true ≠ getChangesetContent rels s false := by
  have htrue : getChangesetContent rels s true =
      some (getReleasesSection rels ++ "\n  " ++
        getChangeTypesSection rels (some (bucketName t)) ++
        "\n  \n  " ++ s ++ "\n  ") := by
    unfold getChangesetContent
    rw [if_pos (by exact ⟨rfl, by simpa using hsome⟩)]
    have hg := grouped_single_bucket rels t hall hne
    simp only [hg, List.map_cons, List.map_nil]
    rw [show ∀ x : String, String.intercalate "\n" [x] = x from fun _ => rfl]
  have hfalse : getChangesetContent rels s false =
      some (getReleasesSection rels ++ " \n    " ++
        getChangeTypesSection rels Option.none ++
        "\n  \n  " ++ s ++ "\n  ") := by
    unfold getChangesetContent
    rw [if_neg (by simp)]
    rw [if_pos (by simpa using hsome)]
  refine ⟨htrue, hfalse, ?_, ?_⟩
  · rintro r rfl hti
    have hr : r.type = t := hall r (by simp)
    have hbn : bucketName t = t := by
      rcases hti with h | h | h <;> simp [bucketName, h]
    rw [hbn]
    have htne : t ≠ "" := by
      rcases hti with h | h | h <;> simp [h]
    simp [getChangeTypesSection, htne, hr]
  · rw [htrue, hfalse]
    intro h
    have h' := Option.some.inj h
    have hdata := congrArg String.data h'
    simp only [String.data_append, List.append_assoc] at hdata
    have hc := List.append_cancel_left hdata
    simp at hc

/-- Witness for `c2_amended` at a concrete one-release major list. -/
theorem c2_amended_witness :
    (∀ r ∈ ([⟨"pkg-a", "major", some [⟨⟨"Added", "t"⟩, "d"⟩]⟩] : List Release),
        r.type = "major") ∧
      getChangesetContent [⟨"pkg-a", "major", some [⟨⟨"Added", "t"⟩, "d"⟩]⟩]
          "sum" true ≠
        getChangesetContent [⟨"pkg-a", "major", some [⟨⟨"Added", "t"⟩, "d"⟩]⟩]
          "sum" false :=
  ⟨by decide,
    (c2_amended [⟨"pkg-a", "major", some [⟨⟨"Added", "t"⟩, "d"⟩]⟩] "sum" "major"
      (by decide) (by decide) (by decide)).2.2.2⟩

/-! ## Release selector: `getPackagesToRelease` (multi-package initial
selection) and the bump classification loop, from the `createChangeset`
source file.

The checkbox prompt is modelled as a script of selections: each entry of
`responses` is the list of choice names one invocation of
`askCheckboxPlus` returns.  The re-prompt loop consumes the script until a
non-empty selection appears; if the script runs out the loop would block
forever, modelled as `Option.none`. -/

/-- A package: `packageJson.name` and `packageJson.version`, the version as
a semver triple. -/
structure Pkg where
  name : String
  version : Nat × Nat × Nat
deriving Repr, DecidableEq

/-- `semver.lt` on plain triples (lexicographic). -/
def semverLt (a b : Nat × Nat × Nat) : Bool :=
  a.1 < b.1 ∨ (a.1 = b.1 ∧ (a.2.1 < b.2.1 ∨ (a.2.1 = b.2.1 ∧ a.2.2 < b.2.2)))

/-- The filter applied to the accepted selection: the two group labels of
the grouped checkbox are removed from the returned names. -/
def filterGroupLabels (l : List String) : List String :=
  l.filter (fun x => x ≠ "changed packages" ∧ x ≠ "unchanged packages")

/-- The `do … while (packagesToRelease.length === 0)` re-prompt: the first
scripted selection that is non-empty (before any filtering) is accepted. -/
def askUntilNonempty : List (List String) → Option (List String)
  | [] => Option.none
  | r :: rest => if r = [] then askUntilNonempty rest else some r

/-- `getPackagesToRelease`: in multi-package mode, re-ask the grouped
checkbox until the raw selection is non-empty, then drop the group labels.
In single-package mode no prompt is issued and the sole package's name is
returned (`none` models the crash on an empty package universe). -/
def getPackagesToRelease (changedPackages : List String)
    (allPackages : List Pkg) (responses : List (List String)) :
    Option (List String) :=
  if 1 < allPackages.length then
    (askUntilNonempty responses).map filterGroupLabels
  else
    allPackages.head?.map (fun p => [p.name])

theorem askUntilNonempty_spec (responses : List (List String))
    (raw : List String) (h : askUntilNonempty responses = some raw) :
    ∃ k, responses.get? k = some raw ∧ raw ≠ [] ∧
      ∀ j, j < k → responses.get? j = some [] := by
  induction responses with
  | nil => simp [askUntilNonempty] at h
  | cons r rest ih =>
    by_cases hr : r = []
    · subst hr
      simp only [askUntilNonempty, if_pos rfl] at h
      obtain ⟨k, hk, hne, hbefore⟩ := ih h
      refine ⟨k + 1, by simpa using hk, hne, ?_⟩
      intro j hj
      match j with
      | 0 => rfl
      | j + 1 => exact hbefore j (by omega)
    · simp only [askUntilNonempty, if_neg hr] at h
      have hr' : r = raw := Option.some.inj h
      subst hr'
      exact ⟨0, rfl, hr, by omega⟩

/-- C3, counterexample: with more than one package in the universe, a user
whose single response selects only the group label `"changed packages"`
makes `getPackagesToRelease` return a list containing zero package names —
the emptiness check runs on the raw selection before the labels are
filtered out, so the session silently proceeds with zero packages. -/
theorem c3_group_label_selection_yields_empty :
    getPackagesToRelease ["pkg-a"]
        [⟨"pkg-a", (1, 0, 0)⟩, ⟨"pkg-b", (1, 0, 0)⟩]
        [["changed packages"]] = some [] := by
  decide

/-- C3, amended: in multi-package mode the initial multi-select re-prompts
while the raw selection is empty (rejecting each empty selection), and the
accepted raw selection is non-empty; the returned list is that selection
with the two group labels removed, so it is non-empty provided the accepted
selection contains at least one name that is not a group label — but it can
still be empty when the selection consists only of group labels. -/
theorem c3_amended (changedPackages : List String) (allPackages : List Pkg)
    (responses : List (List String)) (l : List String)
    (hmulti : 1 < allPackages.length)
    (hret : getPackagesToRelease changedPackages allPackages responses =
      some l) :
    ∃ k raw, responses.get? k = some raw ∧ raw ≠ [] ∧
      (∀ j, j < k → responses.get? j = some []) ∧
      l = filterGroupLabels raw ∧
      ((∃ x ∈ raw, x ≠ "changed packages" ∧ x ≠ "unchanged packages") →
        l ≠ []) := by
  rw [getPackagesToRelease, if_pos hmulti] at hret
  obtain ⟨raw, hraw, hl⟩ := Option.map_eq_some'.mp hret
  obtain ⟨k, hk, hne, hbefore⟩ := askUntilNonempty_spec responses raw hraw
  refine ⟨k, raw, hk, hne, hbefore, hl.symm, ?_⟩
  rintro ⟨x, hx, hx1, hx2⟩
  rw [← hl]
  intro hnil
  have : x ∈ filterGroupLabels raw :=
    List.mem_filter.mpr ⟨hx, by simp [hx1, hx2]⟩
  rw [hnil] at this
  simp at this

/-- Witness for `c3_amended`: a first empty selection is re-prompted, the
second selection `["pkg-a"]` is accepted and returned. -/
theorem c3_amended_witness :
    (1 < ([⟨"pkg-a", (1, 0, 0)⟩, ⟨"pkg-b", (1, 0, 0)⟩] : List Pkg).length) ∧
      (∃ k raw,
        ([[], ["pkg-a"]] : List (List String)).get? k = some raw ∧ raw ≠ [] ∧
        (∀ j, j < k → ([[], ["pkg-a"]] : List (List String)).get? j =
          some []) ∧
        ["pkg-a"] = filterGroupLabels raw ∧
        ((∃ x ∈ raw, x ≠ "changed packages" ∧ x ≠ "unchanged packages") →
          (["pkg-a"] : List String) ≠ [])) :=
  ⟨by decide,
    c3_amended ["pkg-a"] [⟨"pkg-a", (1, 0, 0)⟩, ⟨"pkg-b", (1, 0, 0)⟩]
      [[], ["pkg-a"]] ["pkg-a"] (by decide) (by decide)⟩

/-! ## Summary collector (`setSummary`)

The console question is modelled by a script `answers` of successive
`askQuestion` replies; the external editor by an `EditorResult` (returned
text, or a thrown error).  The collector records which console questions it
asked, in order, in `prompts`, and whether the editor was attempted in
`editorOpened`.  The unbounded retry loop returns `Option.none` when the
scripted answers run out while still empty. -/

inductive EditorResult where
  | text (s : String)
  | failed
deriving Repr, DecidableEq

/-- The nagging reminder used from the second retry on. -/
def nagQuestion : String := "\n\n# A summary is required for the changelog! 😪"

structure SummaryOutcome where
  summary : String
  confirmed : Bool
  prompts : List String
  editorOpened : Bool
deriving Repr, DecidableEq

/-- The retry loop after the editor path failed: first `askQuestion("")`,
then `askQuestion(nag)` while the answer is empty.  Returns the accepted
answer and the number of nagging re-asks. -/
def retryPhase : List String → Option (String × Nat)
  | [] => Option.none
  | a :: rest =>
    if a = "" then (retryPhase rest).map (fun p => (p.1, p.2 + 1))
    else some (a, 0)

def summaryFallback (asked : List String) (rest : List String) :
    Option SummaryOutcome :=
  (retryPhase rest).map fun p =>
    ⟨p.1, false, asked ++ [""] ++ List.replicate p.2 nagQuestion, true⟩

def summaryFromEditor (editor : EditorResult) (asked : List String)
    (rest : List String) : Option SummaryOutcome :=
  match editor with
  | .text t =>
    if t ≠ "" then some ⟨t, true, asked, true⟩ else summaryFallback asked rest
  | .failed => summaryFallback asked rest

/-- `setSummary`: ask "Summary" once (skipped when configuration forces the
editor); a non-empty console answer is final with `confirmed = false`; on an
empty answer open the editor; non-empty editor text is final with
`confirmed = true`; otherwise fall back to the retry loop. -/
def setSummary : Bool → EditorResult → List String → Option SummaryOutcome
  | true, editor, answers => summaryFromEditor editor [] answers
  | false, _, [] => Option.none
  | false, editor, a :: rest =>
    if a ≠ "" then some ⟨a, false, ["Summary"], false⟩
    else summaryFromEditor editor ["Summary"] rest

theorem retryPhase_answer_ne_empty (rest : List String) (a : String) (k : Nat)
    (h : retryPhase rest = some (a, k)) : a ≠ "" := by
  induction rest generalizing k with
  | nil => simp [retryPhase] at h
  | cons x xs ih =>
    by_cases hx : x = ""
    · simp only [retryPhase, if_pos hx, Option.map_eq_some'] at h
      obtain ⟨p, hp, hpe⟩ := h
      obtain ⟨p1, p2⟩ := p
      injection hpe with h1 h2
      subst h1
      exact ih p2 hp
    · simp only [retryPhase, if_neg hx] at h
      injection h with h1
      injection h1 with h2 h3
      subst h2
      exact hx

theorem summaryFallback_summary_ne_empty (asked rest : List String)
    (out : SummaryOutcome) (h : summaryFallback asked rest = some out) :
    out.summary ≠ "" := by
  simp only [summaryFallback, Option.map_eq_some'] at h
  obtain ⟨p, hp, hpe⟩ := h
  obtain ⟨p1, p2⟩ := p
  rw [← hpe]
  simpa using retryPhase_answer_ne_empty rest p1 p2 hp

theorem summaryFromEditor_summary_ne_empty (editor : EditorResult)
    (asked rest : List String) (out : SummaryOutcome)
    (h : summaryFromEditor editor asked rest = some out) :
    out.summary ≠ "" := by
  cases editor with
  | text t =>
    by_cases ht : t = ""
    · subst ht
      simp only [summaryFromEditor] at h
      rw [if_neg (by simp)] at h
      exact summaryFallback_summary_ne_empty asked rest out h
    · simp only [summaryFromEditor] at h
      rw [if_pos ht] at h
      rw [← Option.some.inj h]
      simpa using ht
  | failed =>
    simp only [summaryFromEditor] at h
    exact summaryFallback_summary_ne_empty asked rest out h

/-- C4: a non-empty first console answer becomes the summary with
`confirmed = false` (no editor attempted); when the console answer is empty
— or the configuration forces the editor, in which case no console answer is
consumed at all — and the editor returns non-empty text, that text becomes
the summary with `confirmed = true`, and the recorded prompt trace shows
that no further summary question is asked for this changeset. -/
theorem c4_summary_console_and_editor (editor : EditorResult) (ans t : String)
    (rest : List String) :
    (ans ≠ "" → setSummary false editor (ans :: rest) =
      some ⟨ans, false, ["Summary"], false⟩) ∧
      (t ≠ "" → setSummary false (.text t) ("" :: rest) =
        some ⟨t, true, ["Summary"], true⟩) ∧
      (t ≠ "" → setSummary true (.text t) rest =
        some ⟨t, true, [], true⟩) := by
  refine ⟨fun h => ?_, fun h => ?_, fun h => ?_⟩
  · simp [setSummary, h]
  · simp [setSummary, summaryFromEditor, h]
  · simp [setSummary, summaryFromEditor, h]

/-- Witness for `c4_summary_console_and_editor`. -/
theorem c4_summary_console_and_editor_witness :
    setSummary false (.text "edited") ["hello"] =
        some ⟨"hello", false, ["Summary"], false⟩ ∧
      setSummary false (.text "edited") [""] =
        some ⟨"edited", true, ["Summary"], true⟩ ∧
      setSummary true (.text "edited") [] =
        some ⟨"edited", true, [], true⟩ :=
  ⟨(c4_summary_console_and_editor (.text "edited") "hello" "edited" []).1
      (by decide),
    (c4_summary_console_and_editor (.text "edited") "hello" "edited" []).2.1
      (by decide),
    (c4_summary_console_and_editor (.text "edited") "hello" "edited" []).2.2
      (by decide)⟩

/-- C5: if the editor fails or returns empty text after an empty console
answer, the collector falls back to the retry loop — the accepted answer
becomes the summary with `confirmed = false`, the prompt trace shows the
first retry with no reminder (`""`) and every subsequent retry with the
nagging reminder — and, whatever the inputs, every outcome the collector
returns has a non-empty summary. -/
theorem c5_fallback_and_nonempty_invariant (editor : EditorResult)
    (hfail : editor = .failed ∨ editor = .text "") :
    (∀ rest a k, retryPhase rest = some (a, k) →
      setSummary false editor ("" :: rest) =
        some ⟨a, false, ["Summary", ""] ++ List.replicate k nagQuestion,
          true⟩ ∧ a ≠ "") ∧
      (∀ (alwaysOpenEditor : Bool) (ed : EditorResult)
        (answers : List String) (out : SummaryOutcome),
        setSummary alwaysOpenEditor ed answers = some out →
        out.summary ≠ "") := by
  constructor
  · intro rest a k hr
    refine ⟨?_, retryPhase_answer_ne_empty rest a k hr⟩
    rcases hfail with h | h <;>
      subst h <;>
      simp [setSummary, summaryFromEditor, summaryFallback, hr]
  · intro flag ed answers out h
    cases flag with
    | false =>
      cases answers with
      | nil => simp [setSummary] at h
      | cons a rest =>
        by_cases ha : a = ""
        · subst ha
          simp only [setSummary] at h
          rw [if_neg (by simp)] at h
          exact summaryFromEditor_summary_ne_empty ed ["Summary"] rest out h
        · simp only [setSummary] at h
          rw [if_pos ha] at h
          rw [← Option.some.inj h]
          simpa using ha
    | true =>
      simp only [setSummary] at h
      exact summaryFromEditor_summary_ne_empty ed [] answers out h

/-- Witness for `c5_fallback_and_nonempty_invariant`: editor throws, the
first retry is answered empty, the second (nagged) retry succeeds. -/
theorem c5_fallback_and_nonempty_invariant_witness :
    (EditorResult.failed = EditorResult.failed ∨
        EditorResult.failed = EditorResult.text "") ∧
      (setSummary false .failed ["", "", "retry summary"] =
        some ⟨"retry summary", false,
          ["Summary", "", nagQuestion], true⟩) ∧
      "retry summary" ≠ "" :=
  ⟨Or.inl rfl,
    ((c5_fallback_and_nonempty_invariant .failed (Or.inl rfl)).1
      ["", "retry summary"] "retry summary" 1 (by decide)).1,
    ((c5_fallback_and_nonempty_invariant .failed (Or.inl rfl)).1
      ["", "retry summary"] "retry summary" 1 (by decide)).2⟩

/-! ## Bump classification (multi-package) and single-package mode

From `createChangeset`: the multi-package flow walks the bump types in
descending severity (`major`, `minor`, `patch`, `none`); at each non-last
step a checkbox selects packages from the pool of packages still without a
bump type; a selected `major` package must pass `confirmMajorRelease` or it
is skipped (`continue`) — left in the pool; the last step force-assigns the
pool.  `ver` maps a package name to its `packageJson.version`, `conf` gives
the user's answer to that package's first-major confirmation, and `sel i`
is the selection returned by the checkbox at step `i`. -/

/-- `confirmMajorRelease`: prompt only when the version is below `1.0.0`;
auto-confirm otherwise.  Returns (decision, whether the prompt was shown). -/
def confirmMajorRelease (version : Nat × Nat × Nat) (answer : Bool) :
    Bool × Bool :=
  if semverLt version (1, 0, 0) then (answer, true) else (true, false)

/-- The inner `for (const pkgName of pkgsForThisBumpType)` loop: a `major`
package whose confirmation resolves to `false` is skipped; every other
package is deleted from the pool and pushed onto the releases. -/
def processBumpPkgs (bumpType : String) (ver : String → Nat × Nat × Nat)
    (conf : String → Bool) :
    List String → List String → List String × List Release
  | [], pool => (pool, [])
  | p :: rest, pool =>
    if bumpType = "major" ∧ (confirmMajorRelease (ver p) (conf p)).1 = false
    then processBumpPkgs bumpType ver conf rest pool
    else
      let r := processBumpPkgs bumpType ver conf rest (pool.erase p)
      (r.1, ⟨p, bumpType, Option.none⟩ :: r.2)

/-- The outer `for (const [i, bump] of bumpTypes.entries())` loop: break on
an empty pool; the last bump type absorbs the whole pool without a prompt,
the others prompt (`sel i`). -/
def runBumpSteps (ver : String → Nat × Nat × Nat) (conf : String → Bool)
    (sel : Nat → List String) :
    List String → Nat → List String → List String × List Release
  | [], _, pool => (pool, [])
  | b :: rest, i, pool =>
    if pool = [] then (pool, [])
    else
      let chosen := if rest = [] then pool else sel i
      let r := processBumpPkgs b ver conf chosen pool
      let r' := runBumpSteps ver conf sel rest (i + 1) r.1
      (r'.1, r.2 ++ r'.2)

/-- The severity order walked by the loop. -/
def bumpTypesOrder : List String := ["major", "minor", "patch", "none"]

/-- `new Set(packagesToRelease)`: deduplication keeping first occurrences
(a JavaScript `Set` iterates in insertion order). -/
def setDedup (l : List String) : List String :=
  l.foldl (fun acc x => if x ∈ acc then acc else acc ++ [x]) []

/-- The release list produced by the multi-package flow. -/
def multiModeReleases (ver : String → Nat × Nat × Nat)
    (conf : String → Bool) (sel : Nat → List String)
    (packagesToRelease : List String) : List Release :=
  (runBumpSteps ver conf sel bumpTypesOrder 0 (setDedup packagesToRelease)).2

theorem processBumpPkgs_pool_subset (bumpType : String)
    (ver : String → Nat × Nat × Nat) (conf : String → Bool)
    (chosen pool : List String) :
    (processBumpPkgs bumpType ver conf chosen pool).1 ⊆ pool := by
  induction chosen generalizing pool with
  | nil => exact fun x hx => hx
  | cons q rest ih =>
    by_cases hq :
        bumpType = "major" ∧ (confirmMajorRelease (ver q) (conf q)).1 = false
    · simpa [processBumpPkgs, if_pos hq] using ih pool
    · simp only [processBumpPkgs, if_neg hq]
      exact fun x hx => List.mem_of_mem_erase (ih (pool.erase q) hx)

theorem processBumpPkgs_skipped_stays (bumpType : String)
    (ver : String → Nat × Nat × Nat) (conf : String → Bool)
    (chosen pool : List String) (pkg : String) (hpool : pkg ∈ pool)
    (hskip : bumpType = "major" ∧
      (confirmMajorRelease (ver pkg) (conf pkg)).1 = false) :
    pkg ∈ (processBumpPkgs bumpType ver conf chosen pool).1 := by
  induction chosen generalizing pool with
  | nil => exact hpool
  | cons q rest ih =>
    by_cases hq :
        bumpType = "major" ∧ (confirmMajorRelease (ver q) (conf q)).1 = false
    · simpa [processBumpPkgs, if_pos hq] using ih pool hpool
    · simp only [processBumpPkgs, if_neg hq]
      have hne : q ≠ pkg := by
        intro he
        exact hq (he.symm ▸ hskip)
      exact ih (pool.erase q) ((List.mem_erase_of_ne (Ne.symm hne)).mpr hpool)

theorem processBumpPkgs_skipped_not_released (bumpType : String)
    (ver : String → Nat × Nat × Nat) (conf : String → Bool)
    (chosen pool : List String) (pkg : String)
    (hskip : bumpType = "major" ∧
      (confirmMajorRelease (ver pkg) (conf pkg)).1 = false) :
    ∀ rel ∈ (processBumpPkgs bumpType ver conf chosen pool).2,
      rel.name ≠ pkg := by
  induction chosen generalizing pool with
  | nil => simp [processBumpPkgs]
  | cons q rest ih =>
    by_cases hq :
        bumpType = "major" ∧ (confirmMajorRelease (ver q) (conf q)).1 = false
    · simpa [processBumpPkgs, if_pos hq] using ih pool
    · simp only [processBumpPkgs, if_neg hq]
      intro rel hrel
      rcases List.mem_cons.mp hrel with he | ht
      · subst he
        intro hname
        have hqp : q = pkg := hname
        exact hq (hqp.symm ▸ hskip)
      · exact ih (pool.erase q) rel ht

theorem processBumpPkgs_accepted_released (bumpType : String)
    (ver : String → Nat × Nat × Nat) (conf : String → Bool)
    (chosen pool : List String) (q : String) (hq : q ∈ chosen)
    (hacc : ¬(bumpType = "major" ∧
      (confirmMajorRelease (ver q) (conf q)).1 = false)) :
    (⟨q, bumpType, Option.none⟩ : Release) ∈
      (processBumpPkgs bumpType ver conf chosen pool).2 := by
  induction chosen generalizing pool with
  | nil => simp at hq
  | cons p rest ih =>
    by_cases hp :
        bumpType = "major" ∧ (confirmMajorRelease (ver p) (conf p)).1 = false
    · have hqr : q ∈ rest := by
        rcases List.mem_cons.mp hq with he | ht
        · exact absurd (he ▸ hp) hacc
        · exact ht
      simpa [processBumpPkgs, if_pos hp] using ih pool hqr
    · simp only [processBumpPkgs, if_neg hp]
      rcases List.mem_cons.mp hq with he | ht
      · subst he
        exact List.mem_cons_self _ _
      · exact List.mem_cons_of_mem _ (ih (pool.erase p) ht)

theorem processBumpPkgs_unchosen_stays (bumpType : String)
    (ver : String → Nat × Nat × Nat) (conf : String → Bool)
    (chosen pool : List String) (pkg : String) (hpool : pkg ∈ pool)
    (hunchosen : pkg ∉ chosen) :
    pkg ∈ (processBumpPkgs bumpType ver conf chosen pool).1 := by
  induction chosen generalizing pool with
  | nil => exact hpool
  | cons q rest ih =>
    have hqr : pkg ∉ rest := fun h => hunchosen (List.mem_cons_of_mem _ h)
    have hne : q ≠ pkg := fun he => hunchosen (he ▸ List.mem_cons_self _ _)
    by_cases hq :
        bumpType = "major" ∧ (confirmMajorRelease (ver q) (conf q)).1 = false
    · simpa [processBumpPkgs, if_pos hq] using ih pool hpool hqr
    · simp only [processBumpPkgs, if_neg hq]
      exact ih (pool.erase q)
        ((List.mem_erase_of_ne (Ne.symm hne)).mpr hpool) hqr

theorem runBumpSteps_sweep (ver : String → Nat × Nat × Nat)
    (conf : String → Bool) (sel : Nat → List String) (i : Nat)
    (pool : List String) (pkg : String) (hpool : pkg ∈ pool)
    (h1 : pkg ∉ sel i) (h2 : pkg ∉ sel (i + 1)) :
    (⟨pkg, "none", Option.none⟩ : Release) ∈
      (runBumpSteps ver conf sel ["minor", "patch", "none"] i pool).2 := by
  have hne : pool ≠ [] := List.ne_nil_of_mem hpool
  have hstay1 :=
    processBumpPkgs_unchosen_stays "minor" ver conf (sel i) pool pkg hpool h1
  have hne1 := List.ne_nil_of_mem hstay1
  have hstay2 :=
    processBumpPkgs_unchosen_stays "patch" ver conf (sel (i + 1))
      (processBumpPkgs "minor" ver conf (sel i) pool).1 pkg hstay1 h2
  have hne2 := List.ne_nil_of_mem hstay2
  have hrel :=
    processBumpPkgs_accepted_released "none" ver conf
      (processBumpPkgs "patch" ver conf (sel (i + 1))
        (processBumpPkgs "minor" ver conf (sel i) pool).1).1
      (processBumpPkgs "patch" ver conf (sel (i + 1))
        (processBumpPkgs "minor" ver conf (sel i) pool).1).1
      pkg hstay2 (by simp)
  simp only [runBumpSteps]
  simp [hne, hne1, hne2, hrel]

/-- C6: in the multi-package flow's major step, a selected package whose
first-major confirmation resolves to `false` (pre-1.0.0 version, user
declines) stays in the pool of packages left to classify and acquires no
release entry, while every selected package whose confirmation resolves to
`true` gets its `major` release; and a package still in the pool that is not
selected at the minor or patch step is swept into the final forced `none`
bucket. -/
theorem c6_declined_major_returns_to_pool (ver : String → Nat × Nat × Nat)
    (conf : String → Bool) (sel : Nat → List String)
    (chosen pool : List String) (pkg : String)
    (hchosen : pkg ∈ chosen) (hpool : pkg ∈ pool)
    (hpre : semverLt (ver pkg) (1, 0, 0) = true) (hconf : conf pkg = false) :
    pkg ∈ (processBumpPkgs "major" ver conf chosen pool).1 ∧
      (∀ rel ∈ (processBumpPkgs "major" ver conf chosen pool).2,
        rel.name ≠ pkg) ∧
      (∀ q ∈ chosen, (confirmMajorRelease (ver q) (conf q)).1 = true →
        (⟨q, "major", Option.none⟩ : Release) ∈
          (processBumpPkgs "major" ver conf chosen pool).2) ∧
      (pkg ∉ sel 1 → pkg ∉ sel 2 →
        (⟨pkg, "none", Option.none⟩ : Release) ∈
          (runBumpSteps ver conf sel ["minor", "patch", "none"] 1
            (processBumpPkgs "major" ver conf chosen pool).1).2) := by
  have hskip : ("major" : String) = "major" ∧
      (confirmMajorRelease (ver pkg) (conf pkg)).1 = false :=
    ⟨rfl, by unfold confirmMajorRelease; rw [if_pos hpre]; exact hconf⟩
  refine ⟨processBumpPkgs_skipped_stays "major" ver conf chosen pool pkg
      hpool hskip,
    processBumpPkgs_skipped_not_released "major" ver conf chosen pool pkg
      hskip, ?_, ?_⟩
  · intro q hq hacc
    exact processBumpPkgs_accepted_released "major" ver conf chosen pool q hq
      (by simp [hacc])
  · intro h1 h2
    exact runBumpSteps_sweep ver conf sel 1 _ pkg
      (processBumpPkgs_skipped_stays "major" ver conf chosen pool pkg hpool
        hskip) h1 h2

/-- Witness for `c6_declined_major_returns_to_pool`: the spec's scenario —
`pkg-a` at `0.5.0` declined at major falls through to the forced `none`
bucket, `pkg-b` at `2.0.0` keeps its major classification. -/
theorem c6_declined_major_returns_to_pool_witness :
    "pkg-a" ∈ (processBumpPkgs "major"
        (fun s => if s = "pkg-a" then (0, 5, 0) else (2, 0, 0))
        (fun _ => false) ["pkg-a", "pkg-b"] ["pkg-a", "pkg-b"]).1 ∧
      (⟨"pkg-b", "major", Option.none⟩ : Release) ∈
        (processBumpPkgs "major"
          (fun s => if s = "pkg-a" then (0, 5, 0) else (2, 0, 0))
          (fun _ => false) ["pkg-a", "pkg-b"] ["pkg-a", "pkg-b"]).2 ∧
      (⟨"pkg-a", "none", Option.none⟩ : Release) ∈
        (runBumpSteps (fun s => if s = "pkg-a" then (0, 5, 0) else (2, 0, 0))
          (fun _ => false) (fun _ => []) ["minor", "patch", "none"] 1
          (processBumpPkgs "major"
            (fun s => if s = "pkg-a" then (0, 5, 0) else (2, 0, 0))
            (fun _ => false) ["pkg-a", "pkg-b"] ["pkg-a", "pkg-b"]).1).2 := by
  have h := c6_declined_major_returns_to_pool
    (fun s => if s = "pkg-a" then (0, 5, 0) else (2, 0, 0))
    (fun _ => false) (fun _ => []) ["pkg-a", "pkg-b"] ["pkg-a", "pkg-b"]
    "pkg-a" (by decide) (by decide) (by decide) (by decide)
  exact ⟨h.1, h.2.2.1 "pkg-b" (by decide) (by decide),
    h.2.2.2 (by decide) (by decide)⟩

/-- The single-package branch of `createChangeset`: a `major` choice runs
the first-major confirmation; declining throws `ExitError(1)` (modelled as
`Except.error 1`, the distinguished abort signal); any other outcome pushes
the single release.  The boolean records whether the confirmation prompt
was shown. -/
def singlePackageReleases (pkg : Pkg) (typeChoice : String)
    (confAnswer : Bool) : Except Nat (List Release) × Bool :=
  if typeChoice = "major" then
    if (confirmMajorRelease pkg.version confAnswer).1 then
      (Except.ok [⟨pkg.name, typeChoice, Option.none⟩],
        (confirmMajorRelease pkg.version confAnswer).2)
    else (Except.error 1, (confirmMajorRelease pkg.version confAnswer).2)
  else (Except.ok [⟨pkg.name, typeChoice, Option.none⟩], false)

/-- C7: in single-package mode, choosing `major` for a package below
`1.0.0` and declining the first-major confirmation aborts the session with
the distinguished `ExitError` exit code `1` (after showing the prompt);
for a version at or above `1.0.0` the confirmation auto-succeeds and the
release is produced without any prompt being shown. -/
theorem c7_single_package_major_decline (pkg : Pkg) (confAnswer : Bool) :
    (semverLt pkg.version (1, 0, 0) = true → confAnswer = false →
      singlePackageReleases pkg "major" confAnswer = (Except.error 1, true)) ∧
      (semverLt pkg.version (1, 0, 0) = false →
        singlePackageReleases pkg "major" confAnswer =
          (Except.ok [⟨pkg.name, "major", Option.none⟩], false)) := by
  constructor
  · intro hpre hdecline
    have hc : confirmMajorRelease pkg.version confAnswer = (false, true) := by
      unfold confirmMajorRelease
      rw [if_pos hpre, hdecline]
    simp [singlePackageReleases, hc]
  · intro hpost
    have hc : confirmMajorRelease pkg.version confAnswer = (true, false) := by
      unfold confirmMajorRelease
      rw [if_neg (fun hcond => by rw [hpost] at hcond; cases hcond)]
    simp [singlePackageReleases, hc]

/-- Witness for `c7_single_package_major_decline`. -/
theorem c7_single_package_major_decline_witness :
    singlePackageReleases ⟨"pkg-a", (0, 5, 0)⟩ "major" false =
        (Except.error 1, true) ∧
      singlePackageReleases ⟨"pkg-b", (2, 0, 0)⟩ "major" false =
        (Except.ok [⟨"pkg-b", "major", Option.none⟩], false) :=
  ⟨(c7_single_package_major_decline ⟨"pkg-a", (0, 5, 0)⟩ false).1
      (by decide) rfl,
    (c7_single_package_major_decline ⟨"pkg-b", (2, 0, 0)⟩ false).2
      (by decide)⟩

/-! ## Changeset writer (`writeChangesetList`)

The writer is modelled as the trace of operations it performs against the
abstract services: the confirmation prompts (indexed by how many have been
asked), the store write, the two VCS operations when a commit configuration
is active, and the fire-and-forget editor launch when the `open` flag is
set.  `asks k` is the user's answer to the `k`-th confirmation prompt. -/

inductive WriterOp where
  | askConfirm (idx : Nat)
  | storeWrite (cs : ChangesetWithConfirmed)
  | gitAdd (cs : ChangesetWithConfirmed)
  | gitCommit (cs : ChangesetWithConfirmed)
  | openEditor (cs : ChangesetWithConfirmed)
deriving Repr, DecidableEq

/-- The operations performed for one accepted changeset, in source order:
store write, then `git.add`/`git.commit` when a commit configuration is
active, then the detached editor launch when `open` is set. -/
def persistOps (commitActive openFlag : Bool) (cs : ChangesetWithConfirmed) : List WriterOp :=
  [WriterOp.storeWrite cs] ++
    (if commitActive then [WriterOp.gitAdd cs, WriterOp.gitCommit cs]
      else []) ++
    (if openFlag then [WriterOp.openEditor cs] else [])

/-- `writeChangesetList`: for each changeset in order, ask for confirmation
unless it is already confirmed; on decline `continue` to the next changeset
with no further operations; on acceptance persist the (now confirmed)
record. -/
def writeChangesetList (commitActive openFlag : Bool) (asks : Nat → Bool) :
    List ChangesetWithConfirmed → Nat → List WriterOp
  | [], _ => []
  | cs :: rest, k =>
    if cs.confirmed then
      persistOps commitActive openFlag cs ++
        writeChangesetList commitActive openFlag asks rest k
    else if asks k then
      WriterOp.askConfirm k ::
        (persistOps commitActive openFlag { cs with confirmed := true } ++
          writeChangesetList commitActive openFlag asks rest (k + 1))
    else
      WriterOp.askConfirm k ::
        writeChangesetList commitActive openFlag asks rest (k + 1)

theorem mem_persistOps_storeWrite (c o : Bool) (cs cs' : ChangesetWithConfirmed) :
    WriterOp.storeWrite cs' ∈ persistOps c o cs ↔ cs' = cs := by
  cases c <;> cases o <;> simp [persistOps]

theorem persistOps_no_askConfirm (c o : Bool) (cs : ChangesetWithConfirmed) (j : Nat) :
    WriterOp.askConfirm j ∉ persistOps c o cs := by
  cases c <;> cases o <;> simp [persistOps]

theorem writeChangesetList_storeWrite_confirmed (c o : Bool)
    (asks : Nat → Bool) (css : List ChangesetWithConfirmed) (k : Nat) (cs' : ChangesetWithConfirmed)
    (h : WriterOp.storeWrite cs' ∈ writeChangesetList c o asks css k) :
    cs'.confirmed = true := by
  induction css generalizing k with
  | nil => simp [writeChangesetList] at h
  | cons cs rest ih =>
    by_cases hc : cs.confirmed
    · rw [writeChangesetList, if_pos hc] at h
      rcases List.mem_append.mp h with hm | hm
      · rw [(mem_persistOps_storeWrite c o cs cs').mp hm]
        exact hc
      · exact ih k hm
    · rw [writeChangesetList, if_neg hc] at h
      by_cases ha : asks k
      · rw [if_pos ha] at h
        rcases List.mem_cons.mp h with hm | hm
        · cases hm
        · rcases List.mem_append.mp hm with hm' | hm'
          · rw [(mem_persistOps_storeWrite c o _ cs').mp hm']
          · exact ih (k + 1) hm'
      · rw [if_neg ha] at h
        rcases List.mem_cons.mp h with hm | hm
        · cases hm
        · exact ih (k + 1) hm

theorem writeChangesetList_all_declined (c o : Bool) (asks : Nat → Bool)
    (hasks : ∀ j, asks j = false) (css : List ChangesetWithConfirmed) (k : Nat)
    (hcss : ∀ x ∈ css, x.confirmed = false) :
    writeChangesetList c o asks css k =
      (List.range css.length).map (fun i => WriterOp.askConfirm (k + i)) := by
  induction css generalizing k with
  | nil => simp [writeChangesetList]
  | cons cs rest ih =>
    rw [writeChangesetList, if_neg (by simp [hcss cs (by simp)]),
      if_neg (by simp [hasks k]),
      ih (k + 1) (fun x hx => hcss x (List.mem_cons_of_mem _ hx))]
    simp only [List.length_cons, List.range_succ_eq_map, List.map_cons,
      List.map_map, Nat.add_zero]
    congr 1
    apply List.map_congr_left
    intro i _
    simp only [Function.comp]
    congr 1
    omega

/-- C8: a changeset whose `confirmed` flag is false and whose confirmation
is declined contributes only its confirmation prompt to the trace — no
store write, no VCS operation — and the loop continues with the rest; a
changeset already confirmed is persisted without the confirmation question
being asked for it; every store write in any trace is of a confirmed
record, and when every confirmation is declined the trace of a fully
unconfirmed list is exactly the confirmation prompts, with no persistence
or VCS operation at all. -/
theorem c8_writer_skips_declined (commitActive openFlag : Bool)
    (asks : Nat → Bool) (cs : ChangesetWithConfirmed) (rest : List ChangesetWithConfirmed) (k : Nat) :
    (cs.confirmed = false → asks k = false →
      writeChangesetList commitActive openFlag asks (cs :: rest) k =
        WriterOp.askConfirm k ::
          writeChangesetList commitActive openFlag asks rest (k + 1)) ∧
      (cs.confirmed = true →
        writeChangesetList commitActive openFlag asks (cs :: rest) k =
          persistOps commitActive openFlag cs ++
            writeChangesetList commitActive openFlag asks rest k ∧
        ∀ j, WriterOp.askConfirm j ∉ persistOps commitActive openFlag cs) ∧
      (∀ css k' cs', WriterOp.storeWrite cs' ∈
          writeChangesetList commitActive openFlag asks css k' →
        cs'.confirmed = true) ∧
      ((∀ j, asks j = false) → (∀ x ∈ cs :: rest, x.confirmed = false) →
        writeChangesetList commitActive openFlag asks (cs :: rest) k =
          (List.range (cs :: rest).length).map
            (fun i => WriterOp.askConfirm (k + i))) := by
  refine ⟨fun hc ha => ?_, fun hc => ?_, ?_, ?_⟩
  · rw [writeChangesetList, if_neg (by simp [hc]), if_neg (by simp [ha])]
  · exact ⟨by rw [writeChangesetList, if_pos hc],
      persistOps_no_askConfirm commitActive openFlag cs⟩
  · exact fun css k' cs' h =>
      writeChangesetList_storeWrite_confirmed commitActive openFlag asks css
        k' cs' h
  · exact fun hasks hcss =>
      writeChangesetList_all_declined commitActive openFlag asks hasks
        (cs :: rest) k hcss

/-- Witness for `c8_writer_skips_declined`: one unconfirmed changeset whose
confirmation is declined, followed by one already-confirmed changeset. -/
theorem c8_writer_skips_declined_witness :
    writeChangesetList true true (fun _ => false)
        [⟨[], "a", false⟩] 0 = [WriterOp.askConfirm 0] ∧
      writeChangesetList true true (fun _ => false)
        [⟨[], "b", true⟩] 0 =
        persistOps true true ⟨[], "b", true⟩ ++ [] ∧
      (∀ j, WriterOp.askConfirm j ∉ persistOps true true ⟨[], "b", true⟩) := by
  refine ⟨?_, ?_, ?_⟩
  · have h := (c8_writer_skips_declined true true (fun _ => false)
      ⟨[], "a", false⟩ [] 0).1 rfl rfl
    rw [h]
    rfl
  · exact ((c8_writer_skips_declined true true (fun _ => false)
      ⟨[], "b", true⟩ [] 0).2.1 rfl).1
  · exact ((c8_writer_skips_declined true true (fun _ => false)
      ⟨[], "b", true⟩ [] 0).2.1 rfl).2

/-! ## Per-package change-type collection and the answer-reuse cache

`previousAnswers` is a JavaScript object keyed by category title; a missing
key and a stored empty string are both falsy, so the cache is modelled as a
total function with `""` for "no truthy previous answer".  The prompt
oracle `ans n` supplies, for the `n`-th (release, category) step, the reuse
confirmation answer (used only when a truthy previous answer exists) and
the fresh free-text answer (used only when a fresh prompt is issued). -/

/-- `getDescriptionWithPreviousAnswer`: offer to reuse the cached answer
when one exists; acceptance returns the cached text and leaves the cache
unchanged; declining or having no previous answer falls through to a fresh
prompt whose answer overwrites the cache entry for this category. -/
def getDescriptionWithPreviousAnswer (previousAnswers : String → String)
    (category : Category) (reuseAnswer : Bool) (freshAnswer : String) :
    String × (String → String) :=
  let previousAnswer := previousAnswers category.title
  if previousAnswer ≠ "" ∧ reuseAnswer then (previousAnswer, previousAnswers)
  else
    (freshAnswer,
      fun c => if c = category.title then freshAnswer else previousAnswers c)

/-- The inner `for (const category of chosenChangeTypeList)` loop of the
per-package flow: one description per category, threading the cache and the
oracle counter. -/
def collectForCats (ans : Nat → Bool × String) :
    List Category → Nat → (String → String) →
    List ChangeType × Nat × (String → String)
  | [], n, cache => ([], n, cache)
  | cat :: rest, n, cache =>
    let e := ans n
    let d := getDescriptionWithPreviousAnswer cache cat e.1 e.2
    let r := collectForCats ans rest (n + 1) d.2
    (⟨cat, d.1⟩ :: r.1, r.2.1, r.2.2)

/-- `getReleasesPerPackage`: one changeset record per release, each with
its own change-type list, sharing the answer cache across releases. -/
def getReleasesPerPackage (cats : List Category) (ans : Nat → Bool × String) :
    List Release → Nat → (String → String) →
    List ChangesetWithConfirmed × Nat × (String → String)
  | [], n, cache => ([], n, cache)
  | rel :: rest, n, cache =>
    let c := collectForCats ans cats n cache
    let r := getReleasesPerPackage cats ans rest c.2.1 c.2.2
    (⟨[{ rel with changeTypes := some c.1 }], "", false⟩ :: r.1, r.2.1, r.2.2)

/-- C9: accepting the reuse offer returns the cached text byte-for-byte and
leaves the cache unchanged; declining, or having no previous answer, issues
a fresh prompt whose answer is returned and overwrites the cache entry for
that category only; composing the two — enter `f` fresh, then accept the
reuse offer — yields exactly the originally entered `f`; and in the
two-release one-category loop, a fresh answer `f` followed by an accepted
reuse produces the description `f` for both packages, regardless of the
fresh text `g` the oracle would have supplied to a second prompt. -/
theorem c9_answer_reuse (cache : String → String) (cat : Category) (r : Bool)
    (f g : String) (ans : Nat → Bool × String) (r₁ r₂ : Release) :
    (cache cat.title ≠ "" →
      getDescriptionWithPreviousAnswer cache cat true f =
        (cache cat.title, cache)) ∧
      (cache cat.title = "" ∨ r = false →
        getDescriptionWithPreviousAnswer cache cat r f =
          (f, fun c => if c = cat.title then f else cache c)) ∧
      (f ≠ "" →
        getDescriptionWithPreviousAnswer
            (getDescriptionWithPreviousAnswer cache cat false f).2 cat true
            g =
          (f, (getDescriptionWithPreviousAnswer cache cat false f).2)) ∧
      (f ≠ "" → ans 0 = (r, f) → ans 1 = (true, g) →
        (getReleasesPerPackage [cat] ans [r₁, r₂] 0 (fun _ => "")).1 =
          [⟨[{ r₁ with changeTypes := some [⟨cat, f⟩] }], "", false⟩,
            ⟨[{ r₂ with changeTypes := some [⟨cat, f⟩] }], "", false⟩]) := by
  refine ⟨fun h => ?_, fun h => ?_, fun hf => ?_, fun hf h0 h1 => ?_⟩
  · simp [getDescriptionWithPreviousAnswer, h]
  · rcases h with h | h
    · simp [getDescriptionWithPreviousAnswer, h]
    · simp [getDescriptionWithPreviousAnswer, h]
  · simp [getDescriptionWithPreviousAnswer, hf]
  · simp [getReleasesPerPackage, collectForCats,
      getDescriptionWithPreviousAnswer, h0, h1, hf]

/-- Witness for `c9_answer_reuse`: category "Added", fresh answer "fresh"
for `pkg-a`, accepted reuse for `pkg-b` — both descriptions are "fresh"
even though the oracle would have answered "other" to a fresh prompt. -/
theorem c9_answer_reuse_witness :
    ("fresh" : String) ≠ "" ∧
      (getReleasesPerPackage [⟨"Added", "x"⟩]
          (fun n => if n = 0 then (false, "fresh") else (true, "other"))
          [⟨"pkg-a", "patch", Option.none⟩, ⟨"pkg-b", "patch", Option.none⟩]
          0 (fun _ => "")).1 =
        [⟨[⟨"pkg-a", "patch", some [⟨⟨"Added", "x"⟩, "fresh"⟩]⟩], "", false⟩,
          ⟨[⟨"pkg-b", "patch", some [⟨⟨"Added", "x"⟩, "fresh"⟩]⟩], "",
            false⟩] :=
  ⟨by decide,
    (c9_answer_reuse (fun _ => "") ⟨"Added", "x"⟩ false "fresh" "other"
        (fun n => if n = 0 then (false, "fresh") else (true, "other"))
        ⟨"pkg-a", "patch", Option.none⟩ ⟨"pkg-b", "patch", Option.none⟩).2.2.2
      (by decide) (by decide) (by decide)⟩

/-! ## The stateful collector class `ChangesetsWithChangeTypes`

The class accumulates state across its methods; it is modelled as a state
record threaded through pure method functions.  Interactive calls take the
prompt answers as oracle parameters.  Precondition violations (the source's
`throw new Error("… must be set")`) are `Except.error`; the JavaScript
`return;` of an inactive collector is `Except.ok` with the state unchanged,
and `getFinalChangesetList`'s bare `return;` is `Option.none`
(`undefined`). -/

structure Config where
  shouldAskForChangeTypes : Bool
  alwaysOpenEditor : Bool
deriving Repr, DecidableEq

/-- `new Set(releases.map(rel => rel.type))` iterated in insertion order. -/
def bumpTypesOf (rels : List Release) : List String :=
  setDedup (rels.map (fun r => r.type))

/-- One `askQuestion` per category, no cache (per-bump-type flow). -/
def collectPlainCats (qa : Nat → String) :
    List Category → Nat → List ChangeType × Nat
  | [], n => ([], n)
  | c :: rest, n =>
    let r := collectPlainCats qa rest (n + 1)
    (⟨c, qa n⟩ :: r.1, r.2)

def perBumpTypeGo (cats : List Category) (qa : Nat → String)
    (rels : List Release) : List String → Nat → List Release
  | [], _ => []
  | bt :: rest, n =>
    let c := collectPlainCats qa cats n
    (rels.filter (fun r => r.type = bt)).map
        (fun r => { r with changeTypes := some c.1 }) ++
      perBumpTypeGo cats qa rels rest c.2

/-- `getReleasesPerBumpType`: one shared change-type list per distinct bump
type, annotated onto every release of that type. -/
def getReleasesPerBumpType (cats : List Category) (qa : Nat → String)
    (rels : List Release) : List Release :=
  perBumpTypeGo cats qa rels (bumpTypesOf rels) 0

/-- `getChangesetList`: one changeset for all releases (per-bump-type
grouping) or one per package, chosen by the `sameMsg` confirmation. -/
def getChangesetList (rels : List Release) (cats : List Category)
    (sameMsg : Bool) (qa : Nat → String) (ans : Nat → Bool × String) :
    List ChangesetWithConfirmed :=
  if sameMsg then [⟨getReleasesPerBumpType cats qa rels, "", false⟩]
  else (getReleasesPerPackage cats ans rels 0 (fun _ => "")).1

structure ChangesetsWithChangeTypes where
  config : Config
  isWithChangeTypes : Bool
  releases : List Release
  chosenChangeTypeList : List Category
  changesetList : List ChangesetWithConfirmed
deriving Repr, DecidableEq

def ChangesetsWithChangeTypes.init (config : Config) :
    ChangesetsWithChangeTypes :=
  ⟨config, false, [], [], []⟩

/-- `setChangeTypeList`: a no-op when the configuration flag is off;
otherwise record the chosen categories (looking their text up in the
configuration-supplied list `all`, the non-null assertion on the lookup
modelled as `Option.none` on a missing title) and activate the collector
exactly when at least one category was chosen. -/
def ChangesetsWithChangeTypes.setChangeTypeList (all : List Category)
    (st : ChangesetsWithChangeTypes) (choosenTitleList : List String) :
    Option ChangesetsWithChangeTypes :=
  if st.config.shouldAskForChangeTypes = false then some st
  else
    (choosenTitleList.mapM (fun title =>
        (all.find? (fun cht => cht.title = title)).map
          (fun cht => (⟨title, cht.text⟩ : Category)))).map
      (fun chosen =>
        { st with
          chosenChangeTypeList := chosen,
          isWithChangeTypes := decide (choosenTitleList.length > 0) })

def ChangesetsWithChangeTypes.setReleases (st : ChangesetsWithChangeTypes)
    (newReleases : List Release) : ChangesetsWithChangeTypes :=
  if st.isWithChangeTypes = false then st
  else { st with releases := newReleases }

def ChangesetsWithChangeTypes.setChangesetList
    (st : ChangesetsWithChangeTypes) (sameMsg : Bool) (qa : Nat → String)
    (ans : Nat → Bool × String) : Except String ChangesetsWithChangeTypes :=
  if st.isWithChangeTypes = false then Except.ok st
  else if st.releases.length = 0 ∨ st.chosenChangeTypeList.length = 0 then
    Except.error "releases and chosenChangeTypeList must be set"
  else
    Except.ok
      { st with
        changesetList :=
          getChangesetList st.releases st.chosenChangeTypeList sameMsg qa
            ans }

/-- The `for (let changeset of this.changesetList) await setSummary(…)`
loop; each changeset consumes its own editor result and console script. -/
def setSummariesLoop (alwaysOpenEditor : Bool) (ed : Nat → EditorResult)
    (ansl : Nat → List String) :
    List ChangesetWithConfirmed → Nat →
    Option (List ChangesetWithConfirmed)
  | [], _ => some []
  | cs :: rest, i =>
    match setSummary alwaysOpenEditor (ed i) (ansl i) with
    | Option.none => Option.none
    | some out =>
      (setSummariesLoop alwaysOpenEditor ed ansl rest (i + 1)).map
        (fun tl =>
          { cs with summary := out.summary, confirmed := out.confirmed } ::
            tl)

def ChangesetsWithChangeTypes.setSummaries (st : ChangesetsWithChangeTypes)
    (ed : Nat → EditorResult) (ansl : Nat → List String) :
    Except String (Option ChangesetsWithChangeTypes) :=
  if st.isWithChangeTypes = false then Except.ok (some st)
  else if st.changesetList.length = 0 then
    Except.error "changesetList must be set"
  else
    Except.ok
      ((setSummariesLoop st.config.alwaysOpenEditor ed ansl st.changesetList
          0).map
        (fun l => { st with changesetList := l }))

def ChangesetsWithChangeTypes.getFinalChangesetList
    (st : ChangesetsWithChangeTypes) :
    Except String (Option (List ChangesetWithConfirmed)) :=
  if st.isWithChangeTypes = false then Except.ok Option.none
  else if st.changesetList.length = 0 then
    Except.error "changesetList must be set"
  else Except.ok (some st.changesetList)

/-- C10: when the collector is inactive — the configuration flag is off, or
the user chose zero categories — `getFinalChangesetList` returns
`undefined` (not a list), and `setReleases`, `setChangesetList` and
`setSummaries` silently return without changing the state and without
raising the "must be set" precondition errors; a fresh collector starts
inactive, stays inactive through `setChangeTypeList` when the flag is off
or the chosen list is empty. -/
theorem c10_inactive_collector (config : Config) (all : List Category)
    (titles : List String) (rels : List Release) (sameMsg : Bool)
    (qa : Nat → String) (ans : Nat → Bool × String)
    (ed : Nat → EditorResult) (ansl : Nat → List String) :
    (config.shouldAskForChangeTypes = false →
      ChangesetsWithChangeTypes.setChangeTypeList all
          (ChangesetsWithChangeTypes.init config) titles =
        some (ChangesetsWithChangeTypes.init config)) ∧
      ChangesetsWithChangeTypes.setChangeTypeList all
          (ChangesetsWithChangeTypes.init config) [] =
        some (ChangesetsWithChangeTypes.init config) ∧
      (ChangesetsWithChangeTypes.init config).isWithChangeTypes = false ∧
      (∀ st : ChangesetsWithChangeTypes, st.isWithChangeTypes = false →
        st.setReleases rels = st ∧
        st.setChangesetList sameMsg qa ans = Except.ok st ∧
        st.setSummaries ed ansl = Except.ok (some st) ∧
        st.getFinalChangesetList = Except.ok Option.none) := by
  refine ⟨fun hoff => ?_, ?_, rfl, fun st hst => ?_⟩
  · simp [ChangesetsWithChangeTypes.setChangeTypeList,
      ChangesetsWithChangeTypes.init, hoff]
  · by_cases hoff : config.shouldAskForChangeTypes = false
    · simp [ChangesetsWithChangeTypes.setChangeTypeList,
        ChangesetsWithChangeTypes.init, hoff]
    · simp [ChangesetsWithChangeTypes.setChangeTypeList,
        ChangesetsWithChangeTypes.init, hoff]
      rfl
  · refine ⟨?_, ?_, ?_, ?_⟩
    · simp [ChangesetsWithChangeTypes.setReleases, hst]
    · simp [ChangesetsWithChangeTypes.setChangesetList, hst]
    · simp [ChangesetsWithChangeTypes.setSummaries, hst]
    · simp [ChangesetsWithChangeTypes.getFinalChangesetList, hst]

/-- Witness for `c10_inactive_collector`: configuration flag off. -/
theorem c10_inactive_collector_witness :
    ChangesetsWithChangeTypes.setChangeTypeList []
        (ChangesetsWithChangeTypes.init ⟨false, false⟩) ["Added"] =
      some (ChangesetsWithChangeTypes.init ⟨false, false⟩) ∧
      (ChangesetsWithChangeTypes.init ⟨false, false⟩).setReleases
          [⟨"pkg-a", "patch", Option.none⟩] =
        ChangesetsWithChangeTypes.init ⟨false, false⟩ ∧
      (ChangesetsWithChangeTypes.init ⟨false, false⟩).setChangesetList true
          (fun _ => "") (fun _ => (false, "")) =
        Except.ok (ChangesetsWithChangeTypes.init ⟨false, false⟩) ∧
      (ChangesetsWithChangeTypes.init ⟨false, false⟩).setSummaries
          (fun _ => .failed) (fun _ => []) =
        Except.ok (some (ChangesetsWithChangeTypes.init ⟨false, false⟩)) ∧
      (ChangesetsWithChangeTypes.init ⟨false, false⟩).getFinalChangesetList =
        Except.ok Option.none := by
  have h := c10_inactive_collector ⟨false, false⟩ [] ["Added"]
    [⟨"pkg-a", "patch", Option.none⟩] true (fun _ => "")
    (fun _ => (false, "")) (fun _ => .failed) (fun _ => [])
  have hops := h.2.2.2 (ChangesetsWithChangeTypes.init ⟨false, false⟩) rfl
  exact ⟨h.1 rfl, hops.1, hops.2.1, hops.2.2.1, hops.2.2.2⟩

end Changesets
